import Mathlib

/-!
Verification of the extraction / normalization / loading pipeline of the
`projets_nobels` job-posting ETL repository.

The Lean definitions below are a shallow embedding of the Python source:

* `src/etl/api/transformation.py` — `categorize_contract_type`,
  `extract_experience_level`;
* `src/etl/scrapers/transformation.py` — `normalize_contract_type`,
  `extract_salary_info`, `extract_experience`;
* `src/etl/api/extraction.py` — date filtering, local/S3 reconciliation and
  `extract_jobs_to_dataframe`;
* `src/etl/api/loading.py` — `load_jobs_to_database`;
* `scripts/collect_all_france_travail_jobs.py` — the pagination loop of
  `collect_all_jobs`.

Python strings are modelled as Lean `String`, dataframes as lists of records,
the database table as the list of its rows, and I/O (S3 downloads, page
requests, SQL inserts) as explicit oracles passed to the embedded functions.
Python `float` values arising from salary parsing are modelled as `ℚ`: every
number the parser builds comes from a short decimal literal, and the claims
evaluated here involve only values on which Python float arithmetic is exact.
-/

/-! ## Python string primitives -/

/-- Python `str.lower` restricted to the alphabets that occur in the pipeline:
ASCII letters and the Latin-1 uppercase letters (`À`..`Þ` except `×`), which
Python lowercases by adding 32 to the code point. Other characters are kept. -/
def pyLowerChar (c : Char) : Char :=
  if 'A' ≤ c ∧ c ≤ 'Z' then Char.ofNat (c.toNat + 32)
  else if 'À' ≤ c ∧ c ≤ 'Þ' ∧ c ≠ '×' then Char.ofNat (c.toNat + 32)
  else c

/-- `s.lower()` on a whole string. -/
def pyLower (s : String) : String := String.mk (s.data.map pyLowerChar)

/-- Bool-valued prefix test on character lists (`needle` against `hay`). -/
def isPrefixChars : List Char → List Char → Bool
  | [], _ => true
  | _ :: _, [] => false
  | a :: as, b :: bs => a = b && isPrefixChars as bs

/-- Python's substring test `needle in hay` on character lists. -/
def containsChars : List Char → List Char → Bool
  | [], needle => isPrefixChars needle []
  | h :: t, needle => isPrefixChars needle (h :: t) || containsChars t needle

/-- Python's `needle in hay` on strings. -/
def strContains (hay needle : String) : Bool := containsChars hay.data needle.data

/-- Python `c.isspace()` for the whitespace characters relevant here. -/
def pyIsSpace (c : Char) : Bool :=
  c = ' ' || c = '\t' || c = '\n' || c = '\r' || c = '\x0b' || c = '\x0c'

/-- Python `str.strip()`: drop leading and trailing whitespace. -/
def pyStrip (s : String) : String :=
  String.mk (((s.data.dropWhile pyIsSpace).reverse.dropWhile pyIsSpace).reverse)

/-- ASCII decimal digit test (`\d` in the source regexes; Python
`str.isdigit` on the ASCII range used by the batch-file naming scheme). -/
def isDig (c : Char) : Bool := '0' ≤ c && c ≤ '9'

/-- Python lexicographic string `<=` (code-point order). -/
def charListLe : List Char → List Char → Bool
  | [], _ => true
  | _ :: _, [] => false
  | a :: as, b :: bs => if a < b then true else if a = b then charListLe as bs else false

/-- `a <= b` on strings, as Python compares date tokens. -/
def pyStrLe (a b : String) : Bool := charListLe a.data b.data

/-! ## Contract-type normalizer (`src/etl/api/transformation.py`,
`categorize_contract_type`) -/

/-- `categorize_contract_type` from `src/etl/api/transformation.py`.
The Python function takes an arbitrary dataframe cell; a non-string cell
(e.g. NaN) is modelled as `none` and yields `"UNKNOWN"`.  A string is
lower-cased and tested against the literal keyword cascade of the source. -/
def categorize_contract_type (contract_text : Option String) : String :=
  match contract_text with
  | none => "UNKNOWN"
  | some raw =>
    let t := pyLower raw
    if strContains t "cdi" then "CDI"
    else if strContains t "cdd" then "CDD"
    else if strContains t "intérim" || strContains t "interim" then "INTERIM"
    else if strContains t "apprentissage" then "APPRENTICESHIP"
    else if strContains t "stage" then "INTERNSHIP"
    else if strContains t "freelance" || strContains t "indépendant" then "FREELANCE"
    else if strContains t "temps partiel" then "PART_TIME"
    else if strContains t "temps plein" then "FULL_TIME"
    else "OTHER"

/-- Ordered keyword table read off the source's `if`/`elif` cascade, as a
first-class rule list (spec §9 asks for the precedence order to be a testable
artifact).  The order is the one in the code: CDI, CDD, interim,
apprenticeship, internship, freelance, part-time, full-time. -/
def contractRuleTable : List (List String × String) :=
  [ (["cdi"], "CDI"),
    (["cdd"], "CDD"),
    (["intérim", "interim"], "INTERIM"),
    (["apprentissage"], "APPRENTICESHIP"),
    (["stage"], "INTERNSHIP"),
    (["freelance", "indépendant"], "FREELANCE"),
    (["temps partiel"], "PART_TIME"),
    (["temps plein"], "FULL_TIME") ]

/-- First-match-wins evaluation of an ordered keyword table; no match gives
`"OTHER"`. -/
def firstMatch (t : String) : List (List String × String) → String
  | [] => "OTHER"
  | (kws, cat) :: rest => if kws.any (fun k => strContains t k) then cat else firstMatch t rest

/-- The table-driven reading of the contract normalizer: lower-case, then
first match over `contractRuleTable`. -/
def categorizeByTable (text : String) : String := firstMatch (pyLower text) contractRuleTable

example : categorize_contract_type (some "Stage de 6 mois") = "INTERNSHIP" := by decide
example : categorize_contract_type (some "stage intérim") = "INTERIM" := by decide
example : categorize_contract_type (some "apprentissage") = "APPRENTICESHIP" := by decide
example : categorize_contract_type (some "APPRENTICESHIP") = "OTHER" := by decide

/-! ## Contract-type normalizer (`src/etl/scrapers/transformation.py`,
`normalize_contract_type`) -/

/-- `any(term in combined_text for term in kws)` from the Python source. -/
def anyKeyword (text : String) (kws : List String) : Bool :=
  kws.any (fun k => strContains text k)

/-- The keyword dictionary of `normalize_contract_type`, in the insertion
order of the Python `dict` (CDI, CDD, STAGE, ALTERNANCE, FREELANCE), which is
the iteration order of the matching loop. -/
def scraperContractKeywords : List (String × List String) :=
  [ ("CDI",
      ["cdi", "indéterminé", "permanent", "indefinite", "full time", "temps plein",
       "permanent contract", "contrat à durée indéterminée", "open-ended", "long-term",
       "long term", "full-time", "fulltime", "permanent position", "poste permanent",
       "emploi permanent", "permanent job", "contrat permanent", "position permanente",
       "poste fixe", "poste à temps plein", "emploi à temps plein", "job permanent"]),
    ("CDD",
      ["cdd", "déterminé", "determined", "fixed term", "temporary",
       "contrat à durée déterminée", "short-term", "short term", "contract duration",
       "durée du contrat", "interim", "intérim", "contrat temporaire",
       "temporary position", "poste temporaire", "emploi temporaire", "temporary job",
       "contrat à terme", "terme fixe", "fixed duration", "durée déterminée",
       "durée limitée", "limited duration", "limited term", "terme limité",
       "contrat limité", "contrat à durée limitée"]),
    ("STAGE",
      ["stage", "stagiaire", "internship", "intern", "trainee", "training period",
       "période de formation", "période d\x27essai", "probation", "probationary",
       "stage conventionné", "stage étudiant", "student internship",
       "graduate internship", "stage de fin d\x27études", "stage de master",
       "stage de licence", "stage de bachelor", "stage de formation",
       "training internship", "stage professionnel", "professional internship",
       "stage rémunéré", "paid internship", "stage non rémunéré", "unpaid internship",
       "summer internship", "stage d\x27été"]),
    ("ALTERNANCE",
      ["alternance", "apprentissage", "apprenti", "contrat pro", "professionnalisation",
       "work-study", "work study", "dual training", "formation en alternance",
       "formation alternée", "contrat d\x27apprentissage",
       "contrat de professionnalisation", "apprenticeship", "contrat en alternance",
       "alternant", "apprentice", "formation professionnelle", "professional training",
       "formation duale", "dual education", "étudiant alternant", "alternating student",
       "alternating training", "formation par alternance",
       "formation professionnelle alternée", "formation professionnalisante"]),
    ("FREELANCE",
      ["freelance", "indépendant", "consultant", "contractor", "self-employed",
       "auto-entrepreneur", "free-lance", "travailleur indépendant", "prestataire",
       "external", "freelancer", "independent contractor", "contractuel", "contractual",
       "consultant externe", "external consultant", "consultant indépendant",
       "independent consultant", "travail indépendant", "independent work",
       "mission freelance", "freelance mission", "mission de consulting",
       "consulting mission", "prestation de service", "service provision",
       "prestation externe", "external service"]) ]

/-- The dictionary loop of `normalize_contract_type`: first category whose
keyword list has a member of the combined text wins. -/
def scraperKeywordLoop (text : String) : List (String × List String) → Option String
  | [] => none
  | (cat, kws) :: rest =>
      if anyKeyword text kws then some cat else scraperKeywordLoop text rest

/-- `normalize_contract_type` from `src/etl/scrapers/transformation.py`.
`none` models a missing / non-string argument (Python falsy values take the
same branch as the placeholder string). -/
def normalize_contract_type (contract_type : Option String) (title : Option String) : String :=
  let contract_info :=
    match contract_type with
    | some s => if s ≠ "" ∧ s ≠ "Type de contrat non disponible" then pyLower s else ""
    | none => ""
  let title_info :=
    match title with
    | some s => if s ≠ "" then pyLower s else ""
    | none => ""
  let combined := pyStrip (contract_info ++ " " ++ title_info)
  if combined = "" then "OTHER"
  else match scraperKeywordLoop combined scraperContractKeywords with
  | some cat => cat
  | none =>
    if anyKeyword combined ["temps partiel", "part time", "part-time", "mi-temps", "half-time"] then
      if anyKeyword combined ["stage", "intern", "stagiaire", "internship"] then "STAGE" else "CDI"
    else if anyKeyword combined ["vdi", "vendeur", "commercial", "sales", "vente", "business developer"] then
      if anyKeyword combined ["indépendant", "commission", "commission-based"] then "FREELANCE" else "CDI"
    else if anyKeyword combined ["étudiant", "student", "formation", "école", "school", "university", "université", "master", "bachelor", "licence", "bac+"] then
      if anyKeyword combined ["alternance", "apprentissage", "apprenti", "work-study"] then "ALTERNANCE" else "STAGE"
    else if anyKeyword combined ["temporaire", "saisonnier", "seasonal", "mission", "project-based", "project based", "projet", "project", "durée limitée", "limited duration", "limited time"] then "CDD"
    else if anyKeyword combined ["directeur", "director", "manager", "responsable", "head of", "chief", "senior", "lead", "executive"] then "CDI"
    else if anyKeyword combined ["ingénieur", "engineer", "developer", "développeur", "technicien", "technician", "analyst", "analyste"] then
      if anyKeyword combined ["stage", "intern", "alternance", "apprenti"] then
        if strContains combined "alternance" || strContains combined "apprenti" then "ALTERNANCE" else "STAGE"
      else "CDI"
    else if strContains combined "contrat" && !(anyKeyword combined ["cdd", "stage", "alternance", "freelance"]) then "CDI"
    else if strContains combined "offre d\x27emploi" || strContains combined "job offer" || strContains combined "job opening" then "CDI"
    else "OTHER"

example : normalize_contract_type (some "stage") (some "temps plein") = "CDI" := by decide
example : normalize_contract_type (some "Stage de 6 mois") (some "Data Analyst") = "STAGE" := by decide

/-! ## A small backtracking matcher for the `re.search` patterns

The salary and experience normalizers use a handful of concrete `re`
patterns.  They are embedded through a miniature regex engine whose elements
cover exactly the constructs those patterns use — literals, one-char classes,
`?`, `+`, `*` over a class, and flat capturing groups — with Python's
semantics: leftmost match, greedy quantifiers with backtracking. -/

inductive RElem where
  | lit (cs : List Char)
  | one (p : Char → Bool)
  | opt (p : Char → Bool)
  | plus (p : Char → Bool)
  | star (p : Char → Bool)
  | openG
  | closeG

/-- First `some` produced by `f` over the candidate list, in order. -/
def firstSome (f : Nat → Option α) : List Nat → Option α
  | [] => none
  | j :: js => match f j with
    | some r => some r
    | none => firstSome f js

/-- Match a flat element sequence against a prefix of `cs`, with greedy
backtracking.  `pend` holds the suffix at the last unclosed `openG`; `gs`
accumulates captured groups (latest first).  Returns the groups in pattern
order on success. -/
def matchSeq (es : List RElem) (cs : List Char) (pend : Option (List Char))
    (gs : List String) : Option (List String) :=
  match es with
  | [] => some gs.reverse
  | .lit l :: es' => if isPrefixChars l cs then matchSeq es' (cs.drop l.length) pend gs else none
  | .one p :: es' =>
      match cs with
      | [] => none
      | c :: cs' => if p c then matchSeq es' cs' pend gs else none
  | .opt p :: es' =>
      match cs with
      | [] => matchSeq es' [] pend gs
      | c :: cs' =>
          if p c then
            match matchSeq es' cs' pend gs with
            | some r => some r
            | none => matchSeq es' cs pend gs
          else matchSeq es' cs pend gs
  | .plus p :: es' =>
      let n := (cs.takeWhile p).length
      firstSome (fun j => matchSeq es' (cs.drop j) pend gs) ((List.range n).map (fun i => n - i))
  | .star p :: es' =>
      let n := (cs.takeWhile p).length
      firstSome (fun j => matchSeq es' (cs.drop j) pend gs) ((List.range (n + 1)).map (fun i => n - i))
  | .openG :: es' => matchSeq es' cs (some cs) gs
  | .closeG :: es' =>
      match pend with
      | some start => matchSeq es' cs none (String.mk (start.take (start.length - cs.length)) :: gs)
      | none => none

/-- `re.search`: try the pattern at every start position, leftmost first. -/
def reSearch (es : List RElem) (cs : List Char) : Option (List String) :=
  match matchSeq es cs none [] with
  | some gs => some gs
  | none =>
    match cs with
    | [] => none
    | _ :: t => reSearch es t

/-- `re.search` on a string. -/
def reSearchStr (es : List RElem) (s : String) : Option (List String) := reSearch es s.data

/-- A capturing group around a flat sub-pattern. -/
def grp (inner : List RElem) : List RElem := .openG :: inner ++ [.closeG]

/-- The `[\s,.]` class of the salary range pattern. -/
def isSepChar (c : Char) : Bool := pyIsSpace c || c = ',' || c = '.'

/-- The `[-–à]` class separating the two numbers of a salary range. -/
def isDashChar (c : Char) : Bool := c = '-' || c = '–' || c = 'à'

/-- `(\d+[\s,.]?\d*)` — one captured salary amount. -/
def numGroup : List RElem := grp [.plus isDig, .opt isSepChar, .star isDig]

/-- `(\d+[\s,.]?\d*)\s*[-–à]\s*(\d+[\s,.]?\d*)` — salary range. -/
def rangePattern : List RElem :=
  numGroup ++ [.star pyIsSpace, .one isDashChar, .star pyIsSpace] ++ numGroup

/-- `(\d+[\s,.]?\d*)` — single salary value. -/
def singlePattern : List RElem := numGroup

/-- `(\d+)\s*[/]\s*(\d+)` — hours-per-week form such as `37/40`. -/
def hoursPattern : List RElem :=
  grp [.plus isDig] ++ [.star pyIsSpace, .one (fun c => c = '/'), .star pyIsSpace] ++
    grp [.plus isDig]

/-- `(\d+)[\s-]*(\d+)\s*an` — experience range, e.g. `2-5 ans`. -/
def expRangePattern : List RElem :=
  grp [.plus isDig] ++ [.star (fun c => pyIsSpace c || c = '-')] ++ grp [.plus isDig] ++
    [.star pyIsSpace, .lit "an".data]

/-- `(\d+)\+?\s*an` — `5+ ans` or `5 ans`. -/
def expPlusPattern : List RElem :=
  grp [.plus isDig] ++ [.opt (fun c => c = '+'), .star pyIsSpace, .lit "an".data]

/-- `minimum\s*(\d+)\s*an`. -/
def expMinimumPattern : List RElem :=
  [.lit "minimum".data, .star pyIsSpace] ++ grp [.plus isDig] ++ [.star pyIsSpace, .lit "an".data]

/-- `au moins\s*(\d+)\s*an`. -/
def expAuMoinsPattern : List RElem :=
  [.lit "au moins".data, .star pyIsSpace] ++ grp [.plus isDig] ++ [.star pyIsSpace, .lit "an".data]

/-! ## Number parsing helpers -/

/-- Value of an ASCII digit string (as Python `int` on regex captures). -/
def digitsToNat (cs : List Char) : Nat := cs.foldl (fun a c => a * 10 + (c.toNat - 48)) 0

/-- Python `int` on a captured digit-only group. -/
def pyInt (s : String) : Nat := digitsToNat s.data

/-- Python `float` on the cleaned captures (`digits`, optionally one `.` and
more digits; a sole `.` is rejected).  Exact rational value. -/
def parseFloatQ (s : String) : Option ℚ :=
  let cs := s.data
  let intPart := cs.takeWhile isDig
  let rest := cs.drop intPart.length
  match rest with
  | [] => if intPart.isEmpty then none else some (digitsToNat intPart : ℚ)
  | '.' :: frac =>
      if frac.all isDig && !(intPart.isEmpty && frac.isEmpty) then
        some ((digitsToNat intPart : ℚ) + (digitsToNat frac : ℚ) / ((10 : ℚ) ^ frac.length))
      else none
  | _ => none

/-- Remove every occurrence of a character (Python `s.replace(c, '')`). -/
def removeChar (s : String) (c : Char) : String := String.mk (s.data.filter (fun x => x ≠ c))

/-- Replace every occurrence of a character (Python `s.replace(a, b)` for
one-character arguments). -/
def replaceChar (s : String) (a b : Char) : String :=
  String.mk (s.data.map (fun c => if c = a then b else c))

example : reSearchStr rangePattern "35 000 - 40 000  par an" = some ["35 000", "40 000"] := by decide
example : reSearchStr expRangePattern "12 ans" = some ["1", "2"] := by decide
example : parseFloatQ "35000" = some 35000 := by decide

/-! ## Salary normalizer (`src/etl/scrapers/transformation.py`,
`extract_salary_info`) -/

/-- Result of `extract_salary_info`: the Python dict
`{min_salary, max_salary, salary_currency, salary_period}`. -/
structure SalaryInfo where
  min_salary : Option ℚ
  max_salary : Option ℚ
  salary_currency : Option String
  salary_period : Option String
deriving DecidableEq, Repr

/-- The "to negotiate" special-case strings of the source. -/
def specialSalaryTexts : List String :=
  ["à négocier", "negotiable", "à discuter", "selon profil", "selon expérience", "competitive"]

/-- Period keyword lists of the source, one list per period, checked in this
order (yearly, monthly, daily, hourly, weekly). -/
def yearlyWords : List String :=
  ["an", "année", "year", "annual", "annuel", "/an", "/year", "par an", "per year"]
def monthlyWords : List String :=
  ["mois", "month", "mensuel", "monthly", "/mois", "/month", "par mois", "per month"]
def dailyWords : List String :=
  ["jour", "day", "daily", "journalier", "/jour", "/day", "par jour", "per day"]
def hourlyWords : List String :=
  ["heure", "hour", "hourly", "horaire", "/heure", "/hour", "par heure", "per hour", "/40", "/35", "/39"]
def weeklyWords : List String :=
  ["semaine", "week", "hebdomadaire", "weekly", "/semaine", "/week", "par semaine", "per week"]

/-- The single-value scan at the end of `extract_salary_info` (shared by the
fall-through from a failed range parse). `s` is the lowered stripped text,
`clean` the text with currency symbols removed. -/
def salarySingleScan (s clean : String) (currency period : Option String) : SalaryInfo :=
  match reSearchStr singlePattern clean with
  | some [g1] =>
      match parseFloatQ (replaceChar (removeChar g1 ' ') ',' '.') with
      | some v0 =>
          let v := if strContains s "k" ∧ v0 < 1000 then v0 * 1000 else v0
          let period2 :=
            match period with
            | some p => some p
            | none => if v < 100 then some "HOURLY"
                      else if v < 10000 then some "MONTHLY" else some "YEARLY"
          ⟨some v, none, currency, period2⟩
      | none => ⟨none, none, currency, period⟩
  | _ => ⟨none, none, currency, period⟩

/-- `extract_salary_info` from `src/etl/scrapers/transformation.py`.  `none`
models a missing / non-string value (the Python falsy branch). -/
def extract_salary_info (salary_text : Option String) : SalaryInfo :=
  match salary_text with
  | none => ⟨none, none, none, none⟩
  | some s0 =>
    if s0 = "" then ⟨none, none, none, none⟩
    else
      let s := pyStrip (pyLower s0)
      if specialSalaryTexts.contains s then ⟨none, none, none, some "NEGOTIABLE"⟩
      else
        let currency :=
          if strContains s "€" || strContains s "eur" || strContains s "euro" then some "EUR"
          else if strContains s "$" || strContains s "usd" || strContains s "dollar" then some "USD"
          else if strContains s "£" || strContains s "gbp" || strContains s "livre" then some "GBP"
          else none
        let period :=
          if anyKeyword s yearlyWords then some "YEARLY"
          else if anyKeyword s monthlyWords then some "MONTHLY"
          else if anyKeyword s dailyWords then some "DAILY"
          else if anyKeyword s hourlyWords then some "HOURLY"
          else if anyKeyword s weeklyWords then some "WEEKLY"
          else none
        let clean := removeChar (removeChar (removeChar s '€') '$') '£'
        let hoursHit :=
          match reSearchStr hoursPattern clean with
          | some [_, g2] => [35, 37, 38, 39, 40, 42].contains (pyInt g2)
          | _ => false
        if hoursHit then ⟨none, none, none, some "HOURLY"⟩
        else
          match reSearchStr rangePattern clean with
          | some [g1, g2] =>
              match parseFloatQ (replaceChar (removeChar g1 ' ') ',' '.'),
                    parseFloatQ (replaceChar (removeChar g2 ' ') ',' '.') with
              | some mn0, some mx0 =>
                  let mn := if strContains s "k" ∧ mn0 < 1000 then mn0 * 1000 else mn0
                  let mx := if strContains s "k" ∧ mx0 < 1000 then mx0 * 1000 else mx0
                  let period2 :=
                    match period with
                    | some p => some p
                    | none => if mn < 100 then some "HOURLY"
                              else if mn < 10000 then some "MONTHLY" else some "YEARLY"
                  ⟨some mn, some mx, currency, period2⟩
              | _, _ => salarySingleScan s clean currency period
          | _ => salarySingleScan s clean currency period

example :
    extract_salary_info (some "35 000 - 40 000 € par an") =
      ⟨some 35000, some 40000, some "EUR", some "YEARLY"⟩ := by decide

/-! ## Experience normalizer (`src/etl/scrapers/transformation.py`,
`extract_experience`) -/

/-- Level from a minimum number of years (the inline conditional of the
source: `< 2` junior, `>= 5` senior, otherwise confirmed). -/
def levelFromMin (minYears : Nat) : String :=
  if minYears < 2 then "JUNIOR" else if minYears ≥ 5 then "SENIOR" else "CONFIRMED"

/-- The four year-pattern searches of `extract_experience`, tried in source
order on the lowered experience text. -/
def experienceYearScan (el : String) : Option (Option Nat × Option Nat × String) :=
  match reSearchStr expRangePattern el with
  | some [g1, g2] =>
      some (some (pyInt g1), some (pyInt g2), levelFromMin (pyInt g1))
  | _ =>
    match reSearchStr expPlusPattern el with
    | some [g1] => some (some (pyInt g1), none, levelFromMin (pyInt g1))
    | _ =>
      match reSearchStr expMinimumPattern el with
      | some [g1] => some (some (pyInt g1), none, levelFromMin (pyInt g1))
      | _ =>
        match reSearchStr expAuMoinsPattern el with
        | some [g1] => some (some (pyInt g1), none, levelFromMin (pyInt g1))
        | _ => none

/-- `extract_experience` from `src/etl/scrapers/transformation.py`: returns
`(min_years, max_years, experience_level)`.  `none` input models a missing /
non-string value. -/
def extract_experience (experience : Option String) (title : Option String) :
    Option Nat × Option Nat × String :=
  let noInfo : Option Nat × Option Nat × String := (none, none, "Tous niveaux d\x27expérience")
  let fromTitle :=
    match title with
    | some t =>
        if t ≠ "" then
          let tl := pyLower t
          if strContains tl "junior" then (some 0, some 2, "JUNIOR")
          else if strContains tl "senior" || strContains tl "expert" then (some 5, none, "SENIOR")
          else if strContains tl "confirmé" || strContains tl "confirmée" || strContains tl "mid" then
            (some 2, some 5, "CONFIRMED")
          else noInfo
        else noInfo
    | none => noInfo
  match experience with
  | none => fromTitle
  | some e =>
    if e = "" ∨ pyLower e = "expérience non spécifiée" then fromTitle
    else
      let el := pyLower e
      if anyKeyword el ["junior", "débutant", "debutant", "entry"] then (some 0, some 2, "JUNIOR")
      else if anyKeyword el ["senior", "expert", "confirmé", "confirmée", "experienced"] then
        (some 5, none, "SENIOR")
      else if anyKeyword el ["mid", "intermédiaire", "intermediaire", "confirmé", "confirmée"] then
        (some 2, some 5, "CONFIRMED")
      else
        match experienceYearScan el with
        | some r => r
        | none => noInfo

example : extract_experience (some "senior 0-2 ans") none = (some 5, none, "SENIOR") := by decide
example : extract_experience (some "3-5 ans") none = (some 3, some 5, "CONFIRMED") := by decide
example : extract_experience (some "minimum 4 ans") none = (some 4, none, "CONFIRMED") := by decide
example : extract_experience none (some "Développeur junior") = (some 0, some 2, "JUNIOR") := by decide

/-! ## Raw-store reconciliation (`src/etl/api/extraction.py`)

`extract_by_date_range` and `extract_all_data_without_date_filter` list local
files and S3 keys, filter by the 8-digit date token (date-ranged mode only),
download the S3 keys whose base filename is not already present locally and
hand the combined file list to `extract_jobs_to_dataframe`.  S3 downloads are
modelled by a success oracle `ok : String → Bool`; a successful download of
key `k` lands at `"data/temp/s3_downloads/" ++ baseName k`, exactly as
`download_s3_file` writes `os.path.join(temp_dir, os.path.basename(key))`. -/

/-- `os.path.basename` on character lists: the part after the last `/`. -/
def baseNameChars (cs : List Char) : List Char :=
  (cs.reverse.takeWhile (fun c => c ≠ '/')).reverse

/-- `os.path.basename` on strings. -/
def baseName (s : String) : String := String.mk (baseNameChars s.data)

/-- Split a character list at every occurrence of `sep`, keeping empty
pieces (Python `str.split` with a one-character separator). -/
def splitOnChar (sep : Char) : List Char → List (List Char)
  | [] => [[]]
  | c :: rest =>
    match splitOnChar sep rest with
    | r :: rs => if c = sep then [] :: r :: rs else (c :: r) :: rs
    | [] => [[]]

/-- `file_name.split('_')`. -/
def splitUnderscore (s : String) : List String := (splitOnChar '_' s.data).map String.mk

/-- The loop of the extraction date filter: the first underscore-delimited
part that is 8 characters of digits, if any (the Python loop `break`s after
the first such part whether or not it is in range). -/
def firstDateToken (name : String) : Option String :=
  (splitUnderscore name).find? (fun p => p.length = 8 && p.data.all isDig)

/-- Date-range acceptance of one file: the Python
`start_date <= file_date <= end_date` on the first 8-digit token; a file
without a token is never appended. -/
def keepInRange (start_date end_date : String) (path : String) : Bool :=
  match firstDateToken (baseName path) with
  | some d => pyStrLe start_date d && pyStrLe d end_date
  | none => false

/-- Local-file filtering of `extract_by_date_range` (its first loop). -/
def filterLocalByRange (start_date end_date : String) (local_files : List String) : List String :=
  local_files.filter (keepInRange start_date end_date)

/-- Temp directory used for S3 downloads in both extraction entry points. -/
def s3TempDir : String := "data/temp/s3_downloads/"

/-- The download loop shared by both extraction entry points: download every
(filtered) S3 key whose base filename is not among the (filtered) local base
filenames; failed downloads (`ok k = false`) are skipped. -/
def downloadMissing (local_sel : List String) (s3_sel : List String) (ok : String → Bool) :
    List String :=
  s3_sel.filterMap (fun k =>
    if (local_sel.map baseName).contains (baseName k) then none
    else if ok k then some (s3TempDir ++ baseName k) else none)

/-- File list assembled by `extract_by_date_range` (`include_s3=True`):
filtered local files followed by the downloaded S3 files. -/
def extract_by_date_range_localPart (start_date end_date : String)
    (local_files : List String) : List String :=
  filterLocalByRange start_date end_date local_files

/-- Downloaded part of the `extract_by_date_range` file list. -/
def extract_by_date_range_s3Part (start_date end_date : String)
    (local_files s3_keys : List String) (ok : String → Bool) : List String :=
  downloadMissing (filterLocalByRange start_date end_date local_files)
    (s3_keys.filter (keepInRange start_date end_date)) ok

/-- `extract_by_date_range`'s combined `all_files`. -/
def extract_by_date_range_files (start_date end_date : String)
    (local_files s3_keys : List String) (ok : String → Bool) : List String :=
  extract_by_date_range_localPart start_date end_date local_files ++
    extract_by_date_range_s3Part start_date end_date local_files s3_keys ok

/-- Downloaded part of the `extract_all_data_without_date_filter` file list
(no date filtering on either origin). -/
def extract_all_data_s3Part (local_files s3_keys : List String) (ok : String → Bool) :
    List String :=
  downloadMissing local_files s3_keys ok

/-- `extract_all_data_without_date_filter`'s combined `all_files`: every
local file, followed by the downloaded S3 files. -/
def extract_all_data_files (local_files s3_keys : List String) (ok : String → Bool) :
    List String :=
  local_files ++ extract_all_data_s3Part local_files s3_keys ok

example :
    extract_by_date_range_files "20240101" "20240131"
      ["data/raw/france_travail/france_travail_all_20240115_120000_p1.json",
       "data/raw/france_travail/france_travail_notes.json"]
      ["raw/france_travail/france_travail_all_20240115_120000_p1.json",
       "raw/france_travail/france_travail_all_20240120_130000_p1.json"]
      (fun _ => true) =
    ["data/raw/france_travail/france_travail_all_20240115_120000_p1.json",
     "data/temp/s3_downloads/france_travail_all_20240120_130000_p1.json"] := by decide

/-! ## Offer assembly (`src/etl/api/extraction.py`, `extract_jobs_to_dataframe`) -/

/-- One raw offer: its `id` field (absent, or a string, possibly empty) and
an opaque payload standing for the remaining fields. -/
structure Offer where
  id : Option String
  payload : String
deriving DecidableEq, Repr

/-- Truthy offer id, as in the Python `offer.get('id')` test: present and
non-empty. -/
def offerGoodId (o : Offer) : Option String :=
  match o.id with
  | some i => if i = "" then none else some i
  | none => none

/-- The accumulation step of `extract_jobs_to_dataframe`: skip an offer with
a falsy id or an id already seen, otherwise record the id and append the
offer. -/
def offerStep (st : List String × List Offer) (o : Offer) : List String × List Offer :=
  match offerGoodId o with
  | some i => if st.1.contains i then st else (i :: st.1, st.2 ++ [o])
  | none => st

/-- `extract_jobs_to_dataframe`: iterate the files in order, each file's
offers in order, deduplicating by id; an empty result becomes `None`. -/
def extract_jobs_to_dataframe (files : List (List Offer)) : Option (List Offer) :=
  let res := files.foldl (fun st f => f.foldl offerStep st) ([], [])
  if res.2.isEmpty then none else some res.2

/-- Claim-side rendering of the assembly rule: flatten the files, drop the
offers without a truthy id, keep the first occurrence of each id. -/
def keepFirstById : List Offer → List Offer
  | [] => []
  | o :: rest =>
    match offerGoodId o with
    | none => keepFirstById rest
    | some i => o :: keepFirstById (rest.filter (fun p => offerGoodId p ≠ some i))
termination_by l => l.length
decreasing_by
  · simp only [List.length_cons]; omega
  · simp only [List.length_cons]
    exact Nat.lt_succ_of_le (List.length_filter_le _ _)

example :
    extract_jobs_to_dataframe
      [[⟨some "a", "x"⟩, ⟨none, "y"⟩, ⟨some "", "z"⟩], [⟨some "a", "w"⟩, ⟨some "b", "v"⟩]] =
    some [⟨some "a", "x"⟩, ⟨some "b", "v"⟩] := by decide
example : extract_jobs_to_dataframe [[⟨none, "y"⟩], []] = none := by decide

/-! ## Idempotent loader (`src/etl/api/loading.py`, `load_jobs_to_database`)

A dataframe row is modelled by its `id` column plus an opaque payload; the
target table by the list of its rows.  `to_sql(..., if_exists='append',
method='multi', chunksize=100)` issues the insert in chunks of 100 inside one
call: a chunk failure raises, the surrounding `except` logs it and the
function returns 0 with no further chunk attempted (and no partial commit —
pandas runs the chunks of one `to_sql` call in a single transaction).  Chunk
failures are modelled by an oracle `failChunk : Nat → Bool` on chunk
indices. -/

/-- One dataframe row headed for the jobs table. -/
structure JobRow where
  id : String
  payload : String
deriving DecidableEq, Repr

/-- `df.drop_duplicates(subset=['id'])`: keep the first row of each id,
scanning once with the set of ids seen so far. -/
def dropDupAux (seen : List String) : List JobRow → List JobRow
  | [] => []
  | r :: rest =>
      if seen.contains r.id then dropDupAux seen rest
      else r :: dropDupAux (r.id :: seen) rest

/-- `df.drop_duplicates(subset=['id'])`. -/
def drop_duplicates_by_id (df : List JobRow) : List JobRow := dropDupAux [] df

/-- The new-record filter of `load_jobs_to_database`: deduplicate the
incoming frame by id, then drop every row whose id is already in the table
(`~filtered_df['id'].isin(existing_ids)`). -/
def new_records (df table : List JobRow) : List JobRow :=
  (drop_duplicates_by_id df).filter (fun r => !((table.map JobRow.id).contains r.id))

/-- The chunk loop of one `to_sql` call: chunks are attempted in index
order; the first failing chunk raises, ending the call.  Returns the
attempted chunk indices and whether the call succeeded. -/
def attemptChunks (failChunk : Nat → Bool) : Nat → Nat → List Nat × Bool
  | 0, _ => ([], true)
  | n + 1, i =>
      if failChunk i then ([i], false)
      else
        let r := attemptChunks failChunk n (i + 1)
        (i :: r.1, r.2)

/-- Number of 100-row chunks `to_sql` uses for `rows`. -/
def numChunks (rows : List JobRow) : Nat := (rows.length + 99) / 100

/-- `load_jobs_to_database`: returns the table after the call, the returned
insert count, and the list of attempted chunk indices.  An empty frame or an
empty new-record set returns 0 without touching the table; a chunk failure is
caught, logged and turned into a 0 return with the table unchanged. -/
def load_jobs_to_database (failChunk : Nat → Bool) (df table : List JobRow) :
    List JobRow × Nat × List Nat :=
  if df.isEmpty then (table, 0, [])
  else
    let newRecs := new_records df table
    if newRecs.isEmpty then (table, 0, [])
    else
      let r := attemptChunks failChunk (numChunks newRecs) 0
      if r.2 then (table ++ newRecs, newRecs.length, r.1) else (table, 0, r.1)

example :
    load_jobs_to_database (fun _ => false)
      [⟨"a", "1"⟩, ⟨"b", "2"⟩, ⟨"c", "3"⟩] [⟨"b", "0"⟩] =
    ([⟨"b", "0"⟩, ⟨"a", "1"⟩, ⟨"c", "3"⟩], 2, [0]) := by decide

/-! ## API pagination (`scripts/collect_all_france_travail_jobs.py`,
`collect_all_jobs`)

The pagination loop requests pages `1 .. max_pages` in order and breaks as
soon as `search_jobs` fails (falsy result), a page carries zero offers, or a
page carries fewer than the requested 150 offers.  A page request is modelled
by an oracle `fetch : Nat → Option Nat` giving the number of offers of each
page (`none` = failed request); saving, S3 upload and the periodic token
refresh do not influence the loop (their exceptions are caught or returned as
values in the source). -/

/-- Pages requested by the loop, starting at `page` with `fuel` iterations
left.  Mirrors the `for page in range(1, max_pages + 1)` body with its three
`break`s. -/
def paginate (fetch : Nat → Option Nat) : Nat → Nat → List Nat
  | 0, _ => []
  | fuel + 1, page =>
      page ::
        match fetch page with
        | none => []
        | some n => if n = 0 then [] else if n < 150 then [] else paginate fetch fuel (page + 1)

/-- The page requests issued by one run of `collect_all_jobs` once the
collection loop is entered. -/
def collect_all_jobs_pages (fetch : Nat → Option Nat) (max_pages : Nat) : List Nat :=
  paginate fetch max_pages 1

/-- A page response that terminates the pagination: failed request, zero
offers, or a short page. -/
def stopsPagination (fetch : Nat → Option Nat) (page : Nat) : Bool :=
  match fetch page with
  | none => true
  | some n => n = 0 || n < 150

example : collect_all_jobs_pages (fun p => if p = 3 then some 20 else some 150) 100 =
    [1, 2, 3] := by decide
example : collect_all_jobs_pages (fun _ => some 150) 4 = [1, 2, 3, 4] := by decide

/-! ## Experience normalizer (`src/etl/api/transformation.py`,
`extract_experience_level`) -/

/-- `extract_experience_level` from `src/etl/api/transformation.py`: the
API-side experience band, a single keyword cascade over the lowered
description (year-range strings sit inside the keyword buckets). -/
def extract_experience_level (description : Option String) : String :=
  match description with
  | none => "NOT_SPECIFIED"
  | some d =>
    let t := pyLower d
    if anyKeyword t ["débutant", "junior", "0-2 ans", "0 à 2 ans"] then "ENTRY"
    else if anyKeyword t ["confirmé", "2-5 ans", "2 à 5 ans", "3 ans"] then "MID"
    else if anyKeyword t ["senior", "5-10 ans", "5 à 10 ans", "expérimenté"] then "SENIOR"
    else if anyKeyword t ["expert", "+ de 10 ans", "plus de 10 ans"] then "EXPERT"
    else "NOT_SPECIFIED"

/-! # Claims

One theorem per claim of the specification audit, in claim order.  Helper
lemmas shared between proofs come first where needed. -/

/-! ## C4 — the salary example -/

/-- C4: the salary normalizer maps the raw text `"35 000 - 40 000 € par an"`
to minimum 35000, maximum 40000, currency `EUR` and period `YEARLY`
(`extract_salary_info`, `src/etl/scrapers/transformation.py`). -/
theorem salary_range_example_normalized :
    extract_salary_info (some "35 000 - 40 000 € par an") =
      ⟨some 35000, some 40000, some "EUR", some "YEARLY"⟩ := by
  decide

/-! ## C6 — idempotence of the contract-type normalizer -/

/-- C6 counterexample: `categorize_contract_type` is not idempotent.  On
`"apprentissage"` it returns `"APPRENTICESHIP"`, but applied again to its own
output it returns `"OTHER"` (the lowered output `"apprenticeship"` contains
no keyword of the cascade). -/
theorem contract_normalizer_not_idempotent :
    categorize_contract_type (some "apprentissage") = "APPRENTICESHIP" ∧
    categorize_contract_type (some "APPRENTICESHIP") = "OTHER" := by
  decide

/-- C6 amended: `categorize_contract_type` is idempotent exactly on the
inputs whose image is one of `CDI`, `CDD`, `INTERIM`, `FREELANCE` or `OTHER`
— those five output strings are fixed points of the normalizer, while
`APPRENTICESHIP`, `INTERNSHIP`, `PART_TIME`, `FULL_TIME` (and `UNKNOWN`)
all re-normalize to `OTHER`. -/
theorem contract_normalizer_idempotent_on_stable_outputs
    (t : String)
    (h : categorize_contract_type (some t) = "CDI" ∨
         categorize_contract_type (some t) = "CDD" ∨
         categorize_contract_type (some t) = "INTERIM" ∨
         categorize_contract_type (some t) = "FREELANCE" ∨
         categorize_contract_type (some t) = "OTHER") :
    categorize_contract_type (some (categorize_contract_type (some t))) =
      categorize_contract_type (some t) := by
  rcases h with h | h | h | h | h <;> rw [h] <;> decide

/-- C6 amended, witness: at `t = "cdi"` the hypothesis holds and the
normalizer is idempotent. -/
theorem contract_normalizer_idempotent_on_stable_outputs_witness :
    categorize_contract_type (some (categorize_contract_type (some "cdi"))) =
      categorize_contract_type (some "cdi") :=
  contract_normalizer_idempotent_on_stable_outputs "cdi" (Or.inl (by decide))

/-! ## C3 — order of the contract-type keyword table -/

/-- C3 counterexample.  The claimed order (CDI, CDD, internship,
apprenticeship, freelance, interim, part-time, full-time) and the claimed
internship-over-full-time tie-break both fail on the code:
`categorize_contract_type` checks interim before internship, so
`"stage intérim"` (internship cue and interim cue) yields `"INTERIM"`, not
`"INTERNSHIP"`; and `normalize_contract_type` lists full-time cues in its
CDI bucket, checked before STAGE, so raw `"stage"` with title
`"temps plein"` yields `"CDI"`, not the internship category. -/
theorem contract_type_claimed_order_fails :
    categorize_contract_type (some "stage intérim") = "INTERIM" ∧
    normalize_contract_type (some "stage") (some "temps plein") = "CDI" := by
  decide

/-- C3 amended: `categorize_contract_type` lower-cases the raw contract text
(only — the title is not consulted) and evaluates the ordered keyword table
CDI, CDD, interim, apprenticeship, internship, freelance, part-time,
full-time, first match winning and no match giving `OTHER`; consequently an
input containing an internship or apprenticeship cue together with a
part-time/full-time cue and no earlier (CDI/CDD/interim) cue is classified
in the internship/apprenticeship categories. -/
theorem contract_type_table_order :
    (∀ text, categorize_contract_type (some text) = categorizeByTable text) ∧
    (∀ text,
      (strContains (pyLower text) "apprentissage" = true ∨
       strContains (pyLower text) "stage" = true) →
      strContains (pyLower text) "cdi" = false →
      strContains (pyLower text) "cdd" = false →
      strContains (pyLower text) "intérim" = false →
      strContains (pyLower text) "interim" = false →
      (categorize_contract_type (some text) = "APPRENTICESHIP" ∨
       categorize_contract_type (some text) = "INTERNSHIP")) := by
  constructor
  · intro text
    simp [categorize_contract_type, categorizeByTable, firstMatch, contractRuleTable,
      List.any_cons, List.any_nil, Bool.or_false]
  · intro text h hcdi hcdd hint1 hint2
    by_cases happ : strContains (pyLower text) "apprentissage" = true
    · left
      simp [categorize_contract_type, hcdi, hcdd, hint1, hint2, happ]
    · right
      have hst : strContains (pyLower text) "stage" = true := by
        rcases h with h | h
        · exact absurd h happ
        · exact h
      simp only [Bool.not_eq_true] at happ
      simp [categorize_contract_type, hcdi, hcdd, hint1, hint2, happ, hst]

/-- C3 amended, witness: `"stage temps plein"` has an internship cue and a
full-time cue and no earlier cue; the normalizer classifies it as
internship/apprenticeship. -/
theorem contract_type_table_order_witness :
    categorize_contract_type (some "stage temps plein") = "APPRENTICESHIP" ∨
    categorize_contract_type (some "stage temps plein") = "INTERNSHIP" :=
  contract_type_table_order.2 "stage temps plein" (Or.inr (by decide)) (by decide)
    (by decide) (by decide) (by decide)

/-! ## C5 — precedence order of the experience normalizer -/

/-- C5 counterexample.  The claimed precedence (explicit year patterns
before level keywords) fails on the code: the level-keyword buckets are
checked first.  `"senior 0-2 ans"` carries the explicit range `0-2 ans`
(the `(\d+)[\s-]*(\d+)\s*an` search does match it, second conjunct) yet
`extract_experience` answers from the `senior` keyword, `(5, None, SENIOR)`
instead of the range-derived `(0, 2, JUNIOR)`.  The API-side
`extract_experience_level` behaves the same way: `"junior 5-10 ans"` is
classified `ENTRY` by the junior bucket although its explicit years `5-10`
sit in the senior bucket. -/
theorem experience_claimed_precedence_fails :
    extract_experience (some "senior 0-2 ans") none = (some 5, none, "SENIOR") ∧
    reSearchStr expRangePattern (pyLower "senior 0-2 ans") = some ["0", "2"] ∧
    extract_experience_level (some "junior 5-10 ans") = "ENTRY" := by
  decide

/-- C5 amended: for a non-empty experience text that is not the
`"expérience non spécifiée"` placeholder, `extract_experience` applies its
rules in the precedence order level keywords first (junior bucket, then
senior bucket, then mid bucket), then explicit year patterns, and the title
is never consulted; with no keyword and no year-pattern match the result is
the `"Tous niveaux d'expérience"` sentinel.  Shown here: (a) a senior-bucket
keyword decides regardless of any year pattern when the junior bucket is
empty; (b) the result does not depend on the title; (c) with no level
keyword at all, the year-pattern scan decides, its failure giving the
sentinel. -/
theorem experience_precedence_amended
    (e : String) (title : Option String)
    (hne : e ≠ "") (hns : ¬(pyLower e = "expérience non spécifiée"))
    (hjun : anyKeyword (pyLower e) ["junior", "débutant", "debutant", "entry"] = false) :
    (anyKeyword (pyLower e) ["senior", "expert", "confirmé", "confirmée", "experienced"] = true →
      extract_experience (some e) title = (some 5, none, "SENIOR")) ∧
    extract_experience (some e) title = extract_experience (some e) none ∧
    (anyKeyword (pyLower e) ["senior", "expert", "confirmé", "confirmée", "experienced"] = false →
     anyKeyword (pyLower e) ["mid", "intermédiaire", "intermediaire", "confirmé", "confirmée"] = false →
      extract_experience (some e) title =
        (match experienceYearScan (pyLower e) with
         | some r => r
         | none => (none, none, "Tous niveaux d\x27expérience"))) := by
  refine ⟨fun hsen => ?_, ?_, fun hsen hmid => ?_⟩
  · simp [extract_experience, hne, hns, hjun, hsen]
  · simp [extract_experience, hne, hns]
  · simp [extract_experience, hne, hns, hjun, hsen, hmid]

/-- C5 amended, witness: at `"senior 0-2 ans"` (with a junior-free text and
a senior keyword) the level keyword decides and the title `"junior dev"` is
ignored. -/
theorem experience_precedence_amended_witness :
    (anyKeyword (pyLower "senior 0-2 ans")
        ["senior", "expert", "confirmé", "confirmée", "experienced"] = true →
      extract_experience (some "senior 0-2 ans") (some "junior dev") = (some 5, none, "SENIOR")) ∧
    extract_experience (some "senior 0-2 ans") (some "junior dev") =
      extract_experience (some "senior 0-2 ans") none ∧
    (anyKeyword (pyLower "senior 0-2 ans")
        ["senior", "expert", "confirmé", "confirmée", "experienced"] = false →
     anyKeyword (pyLower "senior 0-2 ans")
        ["mid", "intermédiaire", "intermediaire", "confirmé", "confirmée"] = false →
      extract_experience (some "senior 0-2 ans") (some "junior dev") =
        (match experienceYearScan (pyLower "senior 0-2 ans") with
         | some r => r
         | none => (none, none, "Tous niveaux d\x27expérience"))) :=
  experience_precedence_amended "senior 0-2 ans" (some "junior dev")
    (by decide) (by decide) (by decide)

/-! ## C8 — bounded pagination -/

/-- Unfolding of one loop iteration: the page is requested, and the loop
continues exactly when the response does not stop the pagination. -/
lemma paginate_succ (fetch : Nat → Option Nat) (fuel page : Nat) :
    paginate fetch (fuel + 1) page =
      page :: (if stopsPagination fetch page then [] else paginate fetch fuel (page + 1)) := by
  cases hf : fetch page with
  | none => simp [paginate, stopsPagination, hf]
  | some n =>
    by_cases h0 : n = 0
    · simp [paginate, stopsPagination, hf, h0]
    · by_cases h1 : n < 150 <;> simp [paginate, stopsPagination, hf, h0, h1]

/-- The loop makes at most `fuel` page requests. -/
lemma paginate_length_le (fetch : Nat → Option Nat) :
    ∀ fuel page, (paginate fetch fuel page).length ≤ fuel := by
  intro fuel
  induction fuel with
  | zero => intro page; simp [paginate]
  | succ n ih =>
    intro page
    rw [paginate_succ]
    by_cases hs : stopsPagination fetch page
    · simp only [if_pos hs, List.length_cons, List.length_nil]
      omega
    · simp only [if_neg hs, List.length_cons]
      exact Nat.succ_le_succ (ih (page + 1))

/-- Every requested page number is at least the starting page. -/
lemma paginate_mem_ge (fetch : Nat → Option Nat) :
    ∀ fuel page q, q ∈ paginate fetch fuel page → page ≤ q := by
  intro fuel
  induction fuel with
  | zero => intro page q hq; simp [paginate] at hq
  | succ n ih =>
    intro page q hq
    rw [paginate_succ] at hq
    rcases List.mem_cons.mp hq with h | h
    · exact h ▸ Nat.le_refl q
    · by_cases hs : stopsPagination fetch page
      · simp [hs] at h
      · simp only [if_neg hs] at h
        exact Nat.le_trans (Nat.le_succ page) (ih (page + 1) q h)

/-- After a stopping page the loop issues no further request: a stopping
page is the largest page number in the request list. -/
lemma paginate_no_request_after_stop (fetch : Nat → Option Nat) :
    ∀ fuel page p q, p ∈ paginate fetch fuel page →
      stopsPagination fetch p = true → q ∈ paginate fetch fuel page → q ≤ p := by
  intro fuel
  induction fuel with
  | zero => intro page p q hp _ _; simp [paginate] at hp
  | succ n ih =>
    intro page p q hp hstop hq
    rw [paginate_succ] at hp hq
    by_cases hs : stopsPagination fetch page
    · simp [hs] at hp hq
      subst hp; subst hq; exact Nat.le_refl _
    · simp only [if_neg hs, List.mem_cons] at hp hq
      rcases hp with hp | hp
      · exact absurd (hp ▸ hstop) hs
      · rcases hq with hq | hq
        · exact hq ▸ Nat.le_trans (Nat.le_succ page) (paginate_mem_ge fetch n (page + 1) p hp)
        · exact ih (page + 1) p q hp hstop hq

/-- C8: the collection loop issues at most `max_pages` page requests, and a
page whose response fails, is empty, or carries fewer than the requested 150
records is the last page requested — no further page request is issued
(`collect_all_jobs`, `scripts/collect_all_france_travail_jobs.py`). -/
theorem pagination_bounded_and_stops_immediately
    (fetch : Nat → Option Nat) (max_pages p q : Nat)
    (hp : p ∈ collect_all_jobs_pages fetch max_pages)
    (hstop : stopsPagination fetch p = true)
    (hq : q ∈ collect_all_jobs_pages fetch max_pages) :
    (collect_all_jobs_pages fetch max_pages).length ≤ max_pages ∧ q ≤ p :=
  ⟨paginate_length_le fetch max_pages 1,
   paginate_no_request_after_stop fetch max_pages 1 p q hp hstop hq⟩

/-- C8 witness: with pages of 150 records except page 3 (20 records) and a
budget of 100 pages, the loop requests pages 1, 2, 3 and stops at the short
page 3. -/
theorem pagination_bounded_and_stops_immediately_witness :
    (collect_all_jobs_pages (fun p => if p = 3 then some 20 else some 150) 100).length ≤ 100 ∧
      (1 : Nat) ≤ 3 :=
  pagination_bounded_and_stops_immediately (fun p => if p = 3 then some 20 else some 150)
    100 3 1 (by decide) (by decide) (by decide)

/-! ## C1, C7 — the idempotent loader -/

/-- On a frame whose ids are pairwise distinct (and none already marked
seen), the dedup pass is the identity. -/
lemma dropDupAux_eq_self (df : List JobRow) :
    ∀ seen, (∀ r ∈ df, seen.contains r.id = false) → (df.map JobRow.id).Nodup →
      dropDupAux seen df = df := by
  induction df with
  | nil => intro seen _ _; rfl
  | cons r rest ih =>
    intro seen hseen hnd
    have h1 : seen.contains r.id = false := hseen r (List.mem_cons_self _ _)
    have hnd' := hnd
    simp only [List.map_cons, List.nodup_cons] at hnd'
    have htail : dropDupAux (r.id :: seen) rest = rest := by
      apply ih
      · intro x hx
        simp only [List.contains_cons, Bool.or_eq_false_iff]
        refine ⟨?_, hseen x (List.mem_cons_of_mem _ hx)⟩
        have hxid : x.id ∈ rest.map JobRow.id := List.mem_map_of_mem _ hx
        have : x.id ≠ r.id := fun h => hnd'.1 (h ▸ hxid)
        simp [this]
      · exact hnd'.2
    rw [show dropDupAux seen (r :: rest) =
          if seen.contains r.id = true then dropDupAux seen rest
          else r :: dropDupAux (r.id :: seen) rest from rfl,
        h1, if_neg Bool.false_ne_true, htail]

/-- Members of the dedup pass come from the original frame. -/
lemma dropDupAux_subset (df : List JobRow) :
    ∀ seen r, r ∈ dropDupAux seen df → r ∈ df := by
  induction df with
  | nil => intro seen r h; simp [dropDupAux] at h
  | cons x rest ih =>
    intro seen r h
    simp only [dropDupAux] at h
    by_cases hc : seen.contains x.id
    · simp only [if_pos hc] at h
      exact List.mem_cons_of_mem _ (ih seen r h)
    · simp only [if_neg hc, List.mem_cons] at h
      rcases h with h | h
      · exact h ▸ List.mem_cons_self _ _
      · exact List.mem_cons_of_mem _ (ih _ r h)

/-- With pairwise-distinct ids, the loader's new-record set is the plain
filter of the incoming frame against the existing table ids. -/
lemma new_records_eq_filter (df table : List JobRow) (hids : (df.map JobRow.id).Nodup) :
    new_records df table =
      df.filter (fun r => !((table.map JobRow.id).contains r.id)) := by
  unfold new_records drop_duplicates_by_id
  rw [dropDupAux_eq_self df [] (fun _ _ => rfl) hids]

/-- If every incoming id is already in the table, nothing is new. -/
lemma new_records_nil_of_ids_present (df table : List JobRow)
    (hsub : ∀ r ∈ df, r.id ∈ table.map JobRow.id) : new_records df table = [] := by
  unfold new_records
  rw [List.filter_eq_nil_iff]
  intro r hr
  have hrdf : r ∈ df := dropDupAux_subset df [] r hr
  simp [hsub r hrdf]

/-- A load whose new-record set is empty returns 0 and leaves the table
as it is. -/
lemma load_jobs_of_no_new (failChunk : Nat → Bool) (df table : List JobRow)
    (h : new_records df table = []) :
    load_jobs_to_database failChunk df table = (table, 0, []) := by
  rcases df with _ | ⟨r, rest⟩
  · rfl
  · simp [load_jobs_to_database, h]

/-- When no chunk fails, the chunk loop attempts every chunk, in order. -/
lemma attemptChunks_all_ok (failChunk : Nat → Bool) (hok : ∀ i, failChunk i = false) :
    ∀ n i, attemptChunks failChunk n i = (List.range' i n, true) := by
  intro n
  induction n with
  | zero => intro i; rfl
  | succ n ih =>
    intro i
    simp only [attemptChunks, hok i, Bool.false_eq_true, if_false, ih (i + 1)]
    rw [List.range'_succ]

/-- The chunk loop stops at the first failing chunk: with the first failure
at index `k < n`, exactly chunks `0..k` are attempted and the call fails. -/
lemma attemptChunks_first_fail (failChunk : Nat → Bool) :
    ∀ k n i, failChunk (i + k) = true → (∀ j < k, failChunk (i + j) = false) → k < n →
      attemptChunks failChunk n i = (List.range' i (k + 1), false) := by
  intro k
  induction k with
  | zero =>
    intro n i hf _ hn
    rcases n with _ | m
    · omega
    · rw [Nat.add_zero] at hf
      simp [attemptChunks, hf, List.range'_succ]
  | succ k ih =>
    intro n i hf hbefore hn
    rcases n with _ | m
    · omega
    · have h0 : failChunk i = false := by
        have := hbefore 0 (Nat.succ_pos k)
        rwa [Nat.add_zero] at this
      have hf' : failChunk ((i + 1) + k) = true := by
        rwa [show (i + 1) + k = i + (k + 1) by omega]
      have hbefore' : ∀ j < k, failChunk ((i + 1) + j) = false := by
        intro j hj
        have := hbefore (j + 1) (Nat.succ_lt_succ hj)
        rwa [show i + (j + 1) = (i + 1) + j by omega] at this
      simp only [attemptChunks, h0, Bool.false_eq_true, if_false,
        ih m (i + 1) hf' hbefore' (by omega)]
      rw [List.range'_succ, List.range'_succ]
      rfl

/-- A fully successful load of a distinct-id frame appends exactly the
not-yet-present rows and reports their number. -/
lemma load_jobs_eq_of_ok (failChunk : Nat → Bool) (df table : List JobRow)
    (hids : (df.map JobRow.id).Nodup) (hok : ∀ i, failChunk i = false) :
    load_jobs_to_database failChunk df table =
      (table ++ df.filter (fun r => !((table.map JobRow.id).contains r.id)),
       (df.filter (fun r => !((table.map JobRow.id).contains r.id))).length,
       List.range (numChunks (df.filter (fun r => !((table.map JobRow.id).contains r.id))))) := by
  have hF := new_records_eq_filter df table hids
  rcases hdf : df with _ | ⟨r, rest⟩
  · simp [load_jobs_to_database, numChunks]
  · rw [← hdf]
    have hne : df.isEmpty = false := by rw [hdf]; rfl
    by_cases hFe : (df.filter (fun r => !((table.map JobRow.id).contains r.id))).isEmpty
    · have hnil := List.isEmpty_iff.mp hFe
      rw [load_jobs_of_no_new failChunk df table (hF.trans hnil), hnil]
      simp [numChunks]
    · simp only [load_jobs_to_database, hne, Bool.false_eq_true, if_false, hF, hFe,
        attemptChunks_all_ok failChunk hok]
      rw [List.range_eq_range']
      simp

/-- C1: on a batch with pairwise-distinct ids (and a database that accepts
the insert), `load_jobs_to_database` inserts exactly the postings whose id
is not yet in the target table and returns their number; re-running the same
batch against the resulting table inserts nothing and returns 0
(`src/etl/api/loading.py`). -/
theorem load_jobs_inserts_only_new_ids
    (failChunk : Nat → Bool) (df table : List JobRow)
    (hids : (df.map JobRow.id).Nodup) (hok : ∀ i, failChunk i = false) :
    load_jobs_to_database failChunk df table =
      (table ++ df.filter (fun r => !((table.map JobRow.id).contains r.id)),
       (df.filter (fun r => !((table.map JobRow.id).contains r.id))).length,
       List.range (numChunks (df.filter (fun r => !((table.map JobRow.id).contains r.id))))) ∧
    load_jobs_to_database failChunk df
        (table ++ df.filter (fun r => !((table.map JobRow.id).contains r.id))) =
      (table ++ df.filter (fun r => !((table.map JobRow.id).contains r.id)), 0, []) := by
  refine ⟨load_jobs_eq_of_ok failChunk df table hids hok, ?_⟩
  apply load_jobs_of_no_new
  apply new_records_nil_of_ids_present
  intro r hr
  rw [List.map_append, List.mem_append]
  by_cases hmem : r.id ∈ table.map JobRow.id
  · exact Or.inl hmem
  · right
    apply List.mem_map_of_mem
    rw [List.mem_filter]
    refine ⟨hr, ?_⟩
    simp [hmem]

/-- C1 demo batch: 100 postings with distinct ids `"0" .. "99"`. -/
def c1DemoBatch : List JobRow := (List.range 100).map (fun i => ⟨toString i, "offer"⟩)

/-- C1 demo table: 30 of those ids (`"0" .. "29"`) already persisted. -/
def c1DemoTable : List JobRow := (List.range 30).map (fun i => ⟨toString i, "row"⟩)

/-- C1 witness: loading 100 postings of which 30 ids already exist inserts
and reports exactly 70; re-running the load on the now-populated table
reports 0. -/
theorem load_jobs_inserts_only_new_ids_witness :
    (load_jobs_to_database (fun _ => false) c1DemoBatch c1DemoTable).2.1 = 70 ∧
    (load_jobs_to_database (fun _ => false) c1DemoBatch
        (load_jobs_to_database (fun _ => false) c1DemoBatch c1DemoTable).1).2.1 = 0 := by
  have h := load_jobs_inserts_only_new_ids (fun _ => false) c1DemoBatch c1DemoTable
    (by decide) (fun _ => rfl)
  constructor
  · rw [h.1]
    decide
  · rw [h.1]
    show (load_jobs_to_database (fun _ => false) c1DemoBatch
        (c1DemoTable ++
          c1DemoBatch.filter (fun r => !((c1DemoTable.map JobRow.id).contains r.id)))).2.1 = 0
    rw [h.2]

/-- C7 counterexample batch: 101 fresh postings, i.e. two insert chunks. -/
def c7DemoBatch : List JobRow := (List.range 101).map (fun i => ⟨toString i, "offer"⟩)

set_option maxRecDepth 100000 in
/-- C7 counterexample: a failing batch DOES abort the remainder of the load.
With 101 new rows (two chunks of the `chunksize=100` insert) and the first
chunk failing, only chunk 0 is attempted — chunk 1 is never issued — and the
loader returns 0 with the table untouched, contradicting the claim that the
loader logs the failed batch and continues with the subsequent batches. -/
theorem load_batch_failure_not_continued :
    numChunks (new_records c7DemoBatch []) = 2 ∧
    load_jobs_to_database (fun i => i == 0) c7DemoBatch [] = ([], 0, [0]) := by
  decide

/-- C7 amended: a chunk failure inside the single `to_sql` call is caught
and logged (without a batch index), but it ends the whole insert: with the
first failing chunk at index `k`, exactly chunks `0 .. k` are attempted, no
subsequent chunk is issued, the function returns 0 and the table is left
unchanged.  Per-batch continue-on-error exists in this repository only in
the job-skills relation loader (`job_skills_loader.py`), not in
`load_jobs_to_database`. -/
theorem load_batch_failure_aborts
    (failChunk : Nat → Bool) (df table : List JobRow) (k : Nat)
    (hdf : df.isEmpty = false)
    (hk : failChunk k = true) (hbefore : ∀ j < k, failChunk j = false)
    (hlt : k < numChunks (new_records df table)) :
    load_jobs_to_database failChunk df table = (table, 0, List.range (k + 1)) := by
  have hne : (new_records df table).isEmpty = false := by
    cases hE : (new_records df table).isEmpty
    · rfl
    · rw [List.isEmpty_iff.mp hE] at hlt
      simp [numChunks] at hlt
  have hac := attemptChunks_first_fail failChunk k (numChunks (new_records df table)) 0
    (by simpa using hk) (fun j hj => by simpa using hbefore j hj) hlt
  rcases hdfe : df with _ | ⟨r, rest⟩
  · rw [hdfe] at hdf; simp at hdf
  · rw [← hdfe]
    simp only [load_jobs_to_database, hdf, Bool.false_eq_true, if_false, hne, hac]
    rw [List.range_eq_range']

/-- C7 amended demo batch: 201 fresh postings, i.e. three insert chunks. -/
def c7DemoBatch2 : List JobRow := (List.range 201).map (fun i => ⟨toString i, "offer"⟩)

set_option maxRecDepth 100000 in
/-- C7 amended, witness: with the second of three chunks failing, chunks 0
and 1 are attempted, chunk 2 is never issued, and the load returns 0. -/
theorem load_batch_failure_aborts_witness :
    load_jobs_to_database (fun i => i == 1) c7DemoBatch2 [] = ([], 0, List.range 2) :=
  load_batch_failure_aborts (fun i => i == 1) c7DemoBatch2 [] 1 (by decide) (by decide)
    (fun j hj => by
      have h : j = 0 := Nat.lt_one_iff.mp hj
      subst h; rfl)
    (by decide)

/-! ## C2, C9 — reconciliation and date filtering -/

/-- Membership in a list of strings makes `contains` true. -/
lemma contains_of_mem {l : List String} {a : String} (h : a ∈ l) : l.contains a = true := by
  induction l with
  | nil => cases h
  | cons x xs ih =>
    rcases List.mem_cons.mp h with h | h
    · subst h; simp [List.contains_cons]
    · rw [List.contains_cons, ih h, Bool.or_true]

/-- A base filename contains no `/`. -/
lemma baseName_no_slash (s : String) : ∀ a ∈ (baseName s).data, a ≠ '/' := by
  intro a ha
  have h := List.mem_takeWhile_imp (List.mem_reverse.mp ha)
  simpa using h

/-- `takeWhile` over a satisfied prefix stops exactly at the first failing
element. -/
lemma takeWhile_append_stop (p : Char → Bool) (l1 : List Char) (c : Char) (l2 : List Char)
    (h1 : ∀ a ∈ l1, p a = true) (hc : p c = false) :
    (l1 ++ c :: l2).takeWhile p = l1 := by
  induction l1 with
  | nil => simp [List.takeWhile, hc]
  | cons x xs ih =>
    have hx : p x = true := h1 x (List.mem_cons_self _ _)
    simp only [List.cons_append, List.takeWhile, hx, List.append_eq]
    rw [ih (fun a ha => h1 a (List.mem_cons_of_mem _ ha))]

/-- Basename of a file written into the download temp directory: the
directory prefix ends with `/`, so the basename is the stored filename. -/
lemma baseName_tempDir (b : String) (hb : ∀ a ∈ b.data, a ≠ '/') :
    baseName (s3TempDir ++ b) = b := by
  have hsplit : (s3TempDir ++ b).data =
      "data/temp/s3_downloads".data ++ '/' :: b.data := by
    rw [String.data_append]; rfl
  unfold baseName baseNameChars
  rw [hsplit, List.reverse_append]
  have hrev : ('/' :: b.data).reverse = b.data.reverse ++ ['/'] := by simp
  rw [hrev, List.append_assoc, List.singleton_append]
  rw [takeWhile_append_stop _ b.data.reverse '/'
        (List.reverse "data/temp/s3_downloads".data)
        (fun a ha => by simpa using hb a (List.mem_reverse.mp ha)) rfl]
  rw [List.reverse_reverse]

/-- Every downloaded file originates from an S3 key with the same base
filename whose base filename was not among the selected local files. -/
lemma mem_downloadMissing (local_sel s3_sel : List String) (ok : String → Bool) (d : String)
    (hd : d ∈ downloadMissing local_sel s3_sel ok) :
    ∃ k, k ∈ s3_sel ∧ baseName d = baseName k ∧
      ((local_sel.map baseName).contains (baseName k)) = false := by
  simp only [downloadMissing, List.mem_filterMap] at hd
  obtain ⟨k, hk, hopt⟩ := hd
  by_cases h1 : (local_sel.map baseName).contains (baseName k) = true
  · rw [if_pos h1] at hopt; cases hopt
  · rw [if_neg h1] at hopt
    by_cases h2 : ok k = true
    · rw [if_pos h2] at hopt
      injection hopt with hopt
      refine ⟨k, hk, ?_, Bool.not_eq_true _ ▸ h1⟩
      rw [← hopt]
      exact baseName_tempDir (baseName k) (baseName_no_slash k)
    · rw [if_neg h2] at hopt; cases hopt

/-- The date-range acceptance of a path only looks at its base filename, so
paths sharing a base filename are accepted or rejected together. -/
lemma keepInRange_congr (start_date end_date : String) {a b : String}
    (h : baseName a = baseName b) :
    keepInRange start_date end_date a = keepInRange start_date end_date b := by
  unfold keepInRange
  rw [h]

/-- C2: no extraction call — date-ranged or all-data — hands the record
extractor both a local file and a downloaded S3 file with the same base
filename; whenever a base filename is present in both origins, the local
copy is the one kept and the S3 object is not downloaded
(`extract_by_date_range` / `extract_all_data_without_date_filter`,
`src/etl/api/extraction.py`). -/
theorem reconciliation_prefers_local
    (start_date end_date : String) (local_files s3_keys : List String) (ok : String → Bool) :
    (∀ l ∈ extract_by_date_range_localPart start_date end_date local_files,
     ∀ d ∈ extract_by_date_range_s3Part start_date end_date local_files s3_keys ok,
       baseName l ≠ baseName d) ∧
    (∀ l ∈ local_files, ∀ d ∈ extract_all_data_s3Part local_files s3_keys ok,
       baseName l ≠ baseName d) ∧
    (∀ k ∈ s3_keys, (∃ l ∈ local_files, baseName l = baseName k) →
     ∀ d ∈ extract_by_date_range_s3Part start_date end_date local_files s3_keys ok,
       baseName d ≠ baseName k) ∧
    (∀ k ∈ s3_keys, (∃ l ∈ local_files, baseName l = baseName k) →
     ∀ d ∈ extract_all_data_s3Part local_files s3_keys ok, baseName d ≠ baseName k) := by
  refine ⟨?_, ?_, ?_, ?_⟩
  · intro l hl d hd heq
    obtain ⟨k, _, hbd, hnc⟩ := mem_downloadMissing _ _ _ _ hd
    have : baseName k ∈ (filterLocalByRange start_date end_date local_files).map baseName := by
      rw [← hbd, ← heq]
      exact List.mem_map_of_mem _ hl
    rw [contains_of_mem this] at hnc
    cases hnc
  · intro l hl d hd heq
    obtain ⟨k, _, hbd, hnc⟩ := mem_downloadMissing _ _ _ _ hd
    have : baseName k ∈ local_files.map baseName := by
      rw [← hbd, ← heq]
      exact List.mem_map_of_mem _ hl
    rw [contains_of_mem this] at hnc
    cases hnc
  · intro k _ hboth d hd heq
    obtain ⟨l, hl, hbl⟩ := hboth
    obtain ⟨k', hk', hbd, hnc⟩ := mem_downloadMissing _ _ _ _ hd
    have hkk : baseName k' = baseName l := by rw [← hbd, heq, ← hbl]
    have hkeep : keepInRange start_date end_date k' = true := (List.mem_filter.mp hk').2
    have hlkeep : keepInRange start_date end_date l = true := by
      rw [keepInRange_congr start_date end_date hkk] at hkeep
      exact hkeep
    have hlmem : l ∈ extract_by_date_range_localPart start_date end_date local_files :=
      List.mem_filter.mpr ⟨hl, hlkeep⟩
    have : baseName k' ∈ (filterLocalByRange start_date end_date local_files).map baseName := by
      rw [hkk]
      exact List.mem_map_of_mem _ hlmem
    rw [contains_of_mem this] at hnc
    cases hnc
  · intro k _ hboth d hd heq
    obtain ⟨l, hl, hbl⟩ := hboth
    obtain ⟨k', _, hbd, hnc⟩ := mem_downloadMissing _ _ _ _ hd
    have : baseName k' ∈ local_files.map baseName := by
      rw [← hbd, heq, ← hbl]
      exact List.mem_map_of_mem _ hl
    rw [contains_of_mem this] at hnc
    cases hnc

/-- C2 witness: one local batch and one distinct S3 batch in range — the
downloaded copy's base filename differs from the kept local one's. -/
theorem reconciliation_prefers_local_witness :
    baseName "data/raw/france_travail/france_travail_all_20240115_120000_p1.json" ≠
      baseName "data/temp/s3_downloads/france_travail_all_20240120_130000_p1.json" :=
  (reconciliation_prefers_local "20240101" "20240131"
      ["data/raw/france_travail/france_travail_all_20240115_120000_p1.json"]
      ["raw/france_travail/france_travail_all_20240115_120000_p1.json",
       "raw/france_travail/france_travail_all_20240120_130000_p1.json"]
      (fun _ => true)).1
    "data/raw/france_travail/france_travail_all_20240115_120000_p1.json" (by decide)
    "data/temp/s3_downloads/france_travail_all_20240120_130000_p1.json" (by decide)

/-- C9: a raw batch file whose name has no underscore-delimited 8-digit date
token is excluded from every date-ranged extraction listing but included
when extracting all data; a file with such a token is listed by the
date-ranged extraction exactly when the token (the first 8-digit part, per
the naming convention) lies between the start and end dates inclusive
(`extract_by_date_range` / `extract_all_data_without_date_filter`,
`src/etl/api/extraction.py`). -/
theorem date_token_filtering
    (start_date end_date : String) (local_files s3_keys : List String)
    (ok : String → Bool) (f : String) (hf : f ∈ local_files) :
    (firstDateToken (baseName f) = none →
       f ∉ extract_by_date_range_localPart start_date end_date local_files ∧
       f ∈ extract_all_data_files local_files s3_keys ok) ∧
    (∀ d, firstDateToken (baseName f) = some d →
       (f ∈ extract_by_date_range_localPart start_date end_date local_files ↔
          (pyStrLe start_date d = true ∧ pyStrLe d end_date = true))) := by
  constructor
  · intro hnone
    constructor
    · intro hmem
      have := (List.mem_filter.mp hmem).2
      rw [keepInRange, hnone] at this
      cases this
    · exact List.mem_append_left _ hf
  · intro d hd
    constructor
    · intro hmem
      have := (List.mem_filter.mp hmem).2
      rw [keepInRange, hd] at this
      exact Bool.and_eq_true_iff.mp this
    · intro hrange
      refine List.mem_filter.mpr ⟨hf, ?_⟩
      rw [keepInRange, hd]
      show (pyStrLe start_date d && pyStrLe d end_date) = true
      rw [hrange.1, hrange.2]
      rfl

/-- C9 witness: with range `20240101 .. 20240131`, the token-less file
`france_travail_notes.json` is excluded from the date-ranged listing but
included under all-data mode, and a dated file is included exactly when its
token is within the range. -/
theorem date_token_filtering_witness :
    "data/raw/france_travail/france_travail_notes.json" ∉
        extract_by_date_range_localPart "20240101" "20240131"
          ["data/raw/france_travail/france_travail_all_20240115_120000_p1.json",
           "data/raw/france_travail/france_travail_notes.json"] ∧
    "data/raw/france_travail/france_travail_notes.json" ∈
        extract_all_data_files
          ["data/raw/france_travail/france_travail_all_20240115_120000_p1.json",
           "data/raw/france_travail/france_travail_notes.json"] [] (fun _ => true) :=
  (date_token_filtering "20240101" "20240131"
      ["data/raw/france_travail/france_travail_all_20240115_120000_p1.json",
       "data/raw/france_travail/france_travail_notes.json"] [] (fun _ => true)
      "data/raw/france_travail/france_travail_notes.json" (by decide)).1 (by decide)

/-! ## C10 — offer assembly invariants -/

/-- `contains` on a string list is membership. -/
lemma contains_mem_iff {l : List String} {a : String} : l.contains a = true ↔ a ∈ l := by
  simp

/-- `keepFirstById` relative to a set of already-seen ids (proof-side
generalization of the claim-side `keepFirstById`). -/
def kfbAux (seen : List String) : List Offer → List Offer
  | [] => []
  | o :: rest =>
    match offerGoodId o with
    | none => kfbAux seen rest
    | some i => if seen.contains i then kfbAux seen rest else o :: kfbAux (i :: seen) rest

/-- An offer survives the current seen-set exactly when its id is truthy and
unseen. -/
def notSeenB (seen : List String) (o : Offer) : Bool :=
  match offerGoodId o with
  | some i => !(seen.contains i)
  | none => true

/-- The offer fold of `extract_jobs_to_dataframe`, characterized: it appends
the first-occurrence survivors and records their ids as seen. -/
lemma foldl_offerStep (l : List Offer) :
    ∀ seen acc, l.foldl offerStep (seen, acc) =
      (((kfbAux seen l).filterMap offerGoodId).reverse ++ seen, acc ++ kfbAux seen l) := by
  induction l with
  | nil => intro seen acc; simp [kfbAux]
  | cons o rest ih =>
    intro seen acc
    simp only [List.foldl_cons]
    cases hg : offerGoodId o with
    | none =>
      rw [show offerStep (seen, acc) o = (seen, acc) from by simp [offerStep, hg]]
      rw [ih]
      simp only [kfbAux, hg]
    | some i =>
      by_cases hc : seen.contains i = true
      · rw [show offerStep (seen, acc) o = (seen, acc) from by
          simp [offerStep, hg, contains_mem_iff.mp hc]]
        rw [ih]
        simp only [kfbAux, hg, hc, if_pos]
      · rw [show offerStep (seen, acc) o = (i :: seen, acc ++ [o]) from by
          simp only [offerStep, hg, hc, Bool.false_eq_true, if_false]]
        rw [ih]
        simp only [kfbAux, hg, hc, Bool.false_eq_true, if_false, List.filterMap_cons, hg,
          List.reverse_cons, List.append_assoc, List.singleton_append, List.cons_append,
          List.nil_append, List.append_cancel_left_eq]

/-- `kfbAux` is `keepFirstById` on the offers not yet screened out. -/
lemma kfbAux_eq_keepFirstById (l : List Offer) :
    ∀ seen, kfbAux seen l = keepFirstById (l.filter (notSeenB seen)) := by
  induction l with
  | nil => intro seen; simp [kfbAux, keepFirstById]
  | cons o rest ih =>
    intro seen
    cases hg : offerGoodId o with
    | none =>
      have hns : notSeenB seen o = true := by simp [notSeenB, hg]
      simp only [kfbAux, hg, List.filter_cons, hns, if_pos]
      rw [keepFirstById]
      simp only [hg]
      exact ih seen
    | some i =>
      by_cases hc : seen.contains i = true
      · have hns : notSeenB seen o = false := by
          simp only [notSeenB, hg, hc, Bool.not_true]
        simp only [kfbAux, hg, hc, if_pos, List.filter_cons, hns, Bool.false_eq_true, if_false]
        exact ih seen
      · have hns : notSeenB seen o = true := by
          simp only [notSeenB, hg, Bool.not_eq_true', Bool.not_eq_true]
          exact Bool.not_eq_true _ ▸ hc
        simp only [kfbAux, hg, hc, Bool.false_eq_true, if_false, List.filter_cons, hns, if_pos]
        rw [keepFirstById]
        simp only [hg]
        rw [ih (i :: seen), List.filter_filter]
        congr 1
        congr 1
        apply List.filter_congr
        intro p _
        cases hgp : offerGoodId p with
        | none => simp [notSeenB, hgp]
        | some j =>
          simp only [notSeenB, hgp, List.contains_cons, Option.some.injEq, Bool.not_or,
            decide_not]
          by_cases hji : j = i
          · simp [hji]
          · simp [hji, Ne.symm hji]

/-- Every offer kept by the fold has a truthy id. -/
lemma kfbAux_good (l : List Offer) :
    ∀ seen o, o ∈ kfbAux seen l → (offerGoodId o).isSome := by
  induction l with
  | nil => intro seen o h; simp [kfbAux] at h
  | cons x rest ih =>
    intro seen o h
    cases hg : offerGoodId x with
    | none =>
      simp only [kfbAux, hg] at h
      exact ih seen o h
    | some i =>
      simp only [kfbAux, hg] at h
      by_cases hc : seen.contains i = true
      · rw [if_pos hc] at h
        exact ih seen o h
      · rw [if_neg hc] at h
        rcases List.mem_cons.mp h with h | h
        · subst h; simp [hg]
        · exact ih (i :: seen) o h

/-- Ids kept by the fold were not previously seen. -/
lemma kfbAux_not_seen (l : List Offer) :
    ∀ seen o i, o ∈ kfbAux seen l → offerGoodId o = some i → seen.contains i = false := by
  induction l with
  | nil => intro seen o i h _; simp [kfbAux] at h
  | cons x rest ih =>
    intro seen o i h hoi
    cases hg : offerGoodId x with
    | none =>
      simp only [kfbAux, hg] at h
      exact ih seen o i h hoi
    | some j =>
      simp only [kfbAux, hg] at h
      by_cases hc : seen.contains j = true
      · rw [if_pos hc] at h
        exact ih seen o i h hoi
      · rw [if_neg hc] at h
        rcases List.mem_cons.mp h with h | h
        · subst h
          rw [hg] at hoi
          injection hoi with hoi
          subst hoi
          exact Bool.not_eq_true _ ▸ hc
        · have := ih (j :: seen) o i h hoi
          rw [List.contains_cons, Bool.or_eq_false_iff] at this
          exact this.2

/-- The ids kept by the fold are pairwise distinct. -/
lemma kfbAux_nodup (l : List Offer) :
    ∀ seen, ((kfbAux seen l).map offerGoodId).Nodup := by
  induction l with
  | nil => intro seen; simp [kfbAux]
  | cons x rest ih =>
    intro seen
    cases hg : offerGoodId x with
    | none =>
      simp only [kfbAux, hg]
      exact ih seen
    | some i =>
      simp only [kfbAux, hg]
      by_cases hc : seen.contains i = true
      · rw [if_pos hc]
        exact ih seen
      · rw [if_neg hc]
        rw [List.map_cons, List.nodup_cons]
        refine ⟨?_, ih (i :: seen)⟩
        intro hmem
        obtain ⟨o, ho, hoi⟩ := List.mem_map.mp hmem
        rw [hg] at hoi
        have := kfbAux_not_seen rest (i :: seen) o i ho hoi
        rw [List.contains_cons] at this
        simp at this

/-- With nothing seen yet, no offer is screened out. -/
lemma kfbAux_nil_seen (l : List Offer) : kfbAux [] l = keepFirstById l := by
  rw [kfbAux_eq_keepFirstById]
  congr 1
  apply List.filter_eq_self.mpr
  intro o _
  cases hg : offerGoodId o with
  | none => simp [notSeenB, hg]
  | some i => simp [notSeenB, hg]

/-- C10: `extract_jobs_to_dataframe` keeps, in file order, the first
occurrence of each truthy id — dropping every offer without a truthy `id`
and every repeated id — and returns `None` instead of an empty dataset; the
ids of the result are pairwise distinct (`src/etl/api/extraction.py`). -/
theorem extract_jobs_dedup_characterization (files : List (List Offer)) :
    extract_jobs_to_dataframe files =
      (if (keepFirstById files.flatten).isEmpty then none
       else some (keepFirstById files.flatten)) ∧
    ((keepFirstById files.flatten).map offerGoodId).Nodup ∧
    (keepFirstById files.flatten).all (fun o => (offerGoodId o).isSome) = true := by
  have houter : files.foldl (fun st f => f.foldl offerStep st) ([], []) =
      files.flatten.foldl offerStep ([], []) := (List.foldl_flatten _ _ _).symm
  refine ⟨?_, ?_, ?_⟩
  · rw [extract_jobs_to_dataframe, houter, foldl_offerStep files.flatten [] [],
      kfbAux_nil_seen]
    simp
  · rw [← kfbAux_nil_seen]
    exact kfbAux_nodup files.flatten []
  · rw [← kfbAux_nil_seen, List.all_eq_true]
    intro o ho
    exact kfbAux_good files.flatten [] o ho
